import Mathlib

/-!
Verification of the markdown image-downloader script (`script.py`).

The script scans markdown documents for inline image markers `![alt][name]`
and reference definition lines `[name]: http...`, then downloads each
resolved image with a retrying HTTP client and writes it under
`static/images/<document-stem>/<name>.png`.

We embed the script shallowly: the two regular expressions are modelled by a
small backtracking matcher faithful to Python `re` semantics (lazy/greedy
stars over character classes, the non-MULTILINE `$` anchor, left-to-right
non-overlapping `findall` scanning); the effectful download pipeline is
modelled by pure state-passing functions over an explicit environment
(network outcomes per attempt, filesystem failure flags) producing an
event trace (fetches, writes, sleeps, directory creations).
-/

/-- Character classes appearing in the script's regexes: a literal character,
`.` (any character except newline), and `\s` (whitespace). -/
inductive RAtom where
  | lit (c : Char)
  | dot
  | wsp
deriving DecidableEq, Repr

/-- Whether a character matches an atom.  `\s` is modelled on the ASCII
whitespace characters Python's `re` recognises. -/
def RAtom.accepts : RAtom → Char → Bool
  | .lit c, d => d = c
  | .dot, d => d ≠ '\n'
  | .wsp, d => d = ' ' || d = '\t' || d = '\n' || d = '\r' || d = '\x0b' || d = '\x0c'

/-- Elements of a (linear) regex pattern: single atoms, lazy (`*?`) and
greedy (`*`) stars over an atom, capture-group delimiters, and the
end-of-string anchor `$` (Python semantics without `re.MULTILINE`:
matches at the end of the string or just before a final newline). -/
inductive RElem where
  | atom (a : RAtom)
  | lazyStar (a : RAtom)
  | greedyStar (a : RAtom)
  | grpOpen (i : Nat)
  | grpClose (i : Nat)
  | endAnchor
deriving DecidableEq, Repr

/-- Backtracking matcher.  `matchFrom s fuel p pos stk caps` tries to match
pattern `p` in string `s` starting at position `pos`; `stk` holds the open
capture groups, `caps` the closed ones.  Returns the end position and the
captures of the highest-priority match, mirroring Python `re` backtracking
order (lazy stars try the continuation first, greedy stars the repetition
first).  `fuel` is only a structural-recursion bound: every recursive call
strictly decreases the pair `(s.length - pos, p.length)` lexicographically
and every pattern passed is a suffix of the current one, so the call depth
is at most `(s.length + 1) * (p.length + 1)`; callers pass at least that
much fuel and the `fuel = 0` branch is unreachable. -/
def matchFrom (s : List Char) : Nat → List RElem → Nat → List (Nat × Nat) →
    List (Nat × Nat × Nat) → Option (Nat × List (Nat × Nat × Nat))
  | 0, _, _, _, _ => none
  | fuel + 1, p, pos, stk, caps =>
    match p with
    | [] => some (pos, caps)
    | .atom a :: rest =>
      if h : pos < s.length then
        if a.accepts (s.get ⟨pos, h⟩) then matchFrom s fuel rest (pos + 1) stk caps
        else none
      else none
    | .lazyStar a :: rest =>
      match matchFrom s fuel rest pos stk caps with
      | some r => some r
      | none =>
        if h : pos < s.length then
          if a.accepts (s.get ⟨pos, h⟩) then
            matchFrom s fuel (.lazyStar a :: rest) (pos + 1) stk caps
          else none
        else none
    | .greedyStar a :: rest =>
      if h : pos < s.length then
        if a.accepts (s.get ⟨pos, h⟩) then
          match matchFrom s fuel (.greedyStar a :: rest) (pos + 1) stk caps with
          | some r => some r
          | none => matchFrom s fuel rest pos stk caps
        else matchFrom s fuel rest pos stk caps
      else matchFrom s fuel rest pos stk caps
    | .grpOpen i :: rest => matchFrom s fuel rest pos ((i, pos) :: stk) caps
    | .grpClose _ :: rest =>
      match stk with
      | (j, st) :: stk2 => matchFrom s fuel rest pos stk2 (caps ++ [(j, st, pos)])
      | [] => none
    | .endAnchor :: rest =>
      if pos = s.length || (pos + 1 = s.length && (s.get? pos == some '\n')) then
        matchFrom s fuel rest pos stk caps
      else none

/-- `re.findall`-style scan: try a match at every position left to right,
collect captures of non-overlapping matches, advancing past each match
(or by one character after a failed or empty match).  The fuel argument
bounds the number of scan positions; the wrapper passes `s.length + 1`,
one per possible start position, so it is never exhausted. -/
def findallFrom (s : List Char) (p : List RElem) : Nat → Nat →
    List (List (Nat × Nat × Nat))
  | 0, _ => []
  | fuel + 1, pos =>
    if pos ≤ s.length then
      match matchFrom s ((s.length + 1) * (p.length + 1) + 1) p pos [] [] with
      | some (e, caps) =>
        if pos < e then caps :: findallFrom s p fuel e
        else caps :: findallFrom s p fuel (pos + 1)
      | none =>
        if pos < s.length then findallFrom s p fuel (pos + 1) else []
    else []

/-- `re.findall(pattern, text)` at the capture level: all non-overlapping
matches from the start of the string. -/
def findall (s : List Char) (p : List RElem) : List (List (Nat × Nat × Nat)) :=
  findallFrom s p (s.length + 1) 0

/-- The substring captured by group `i`, as a string (empty if the group is
absent, which does not happen for the script's two patterns). -/
def capStr (s : List Char) (caps : List (Nat × Nat × Nat)) (i : Nat) : String :=
  match caps.find? (fun t => t.1 = i) with
  | some (_, a, b) => String.mk ((s.drop a).take (b - a))
  | none => ""

/-- `INLINE_IMAGE_PATTERN = r"!\[.*?\]\[(.*?)\]"` from `script.py`. -/
def INLINE_IMAGE_PATTERN : List RElem :=
  [.atom (.lit '!'), .atom (.lit '['), .lazyStar .dot, .atom (.lit ']'),
   .atom (.lit '['), .grpOpen 0, .lazyStar .dot, .grpClose 0, .atom (.lit ']')]

/-- `REFERENCE_IMAGE_PATTERN = r"\[(.*?)\]:\s*(http.*?)\s*$"` from `script.py`. -/
def REFERENCE_IMAGE_PATTERN : List RElem :=
  [.atom (.lit '['), .grpOpen 0, .lazyStar .dot, .grpClose 0, .atom (.lit ']'),
   .atom (.lit ':'), .greedyStar .wsp, .grpOpen 1, .atom (.lit 'h'),
   .atom (.lit 't'), .atom (.lit 't'), .atom (.lit 'p'), .lazyStar .dot,
   .grpClose 1, .greedyStar .wsp, .endAnchor]

/-- `re.findall(INLINE_IMAGE_PATTERN, text)`: the reference names cited by
inline image markers, in document order. -/
def findall_inline (text : String) : List String :=
  (findall text.data INLINE_IMAGE_PATTERN).map (fun caps => capStr text.data caps 0)

/-- `re.findall(REFERENCE_IMAGE_PATTERN, text)`: the `(name, url)` pairs of
matched reference definition lines, in document order. -/
def findall_reference (text : String) : List (String × String) :=
  (findall text.data REFERENCE_IMAGE_PATTERN).map
    (fun caps => (capStr text.data caps 0, capStr text.data caps 1))

/-- Lookup in a Python `dict` built from an association list: the last
binding for a key wins. -/
def dictLookup (ps : List (String × String)) (k : String) : Option String :=
  (ps.reverse.find? (fun q => q.1 = k)).map (fun q => q.2)

/-- Steps 1 and 2 of `process_markdown_file`: build
`image_references = dict(re.findall(REFERENCE_IMAGE_PATTERN, content))` and
collect `(ref, image_references[ref])` for every inline reference `ref`
present in the dict, in document order, duplicates kept. -/
def image_urls (content : String) : List (String × String) :=
  (findall_inline content).filterMap
    (fun ref => (dictLookup (findall_reference content) ref).map (fun u => (ref, u)))

/-- `pathlib.Path(p).name`: trailing slashes stripped, then the component
after the last `/`. -/
def pathNameChars (p : String) : List Char :=
  (((p.data.reverse).dropWhile (fun c => c = '/')).takeWhile (fun c => c ≠ '/')).reverse

/-- `pathlib`'s stem of a file name: drop the last `.suffix` when the
rightmost dot is neither the first nor the last character. -/
def stemOfName (n : List Char) : List Char :=
  match ((List.range n.length).filter (fun i => n.get? i == some '.')).getLast? with
  | some i => if 0 < i && i + 1 < n.length then n.take i else n
  | none => n

/-- `pathlib.Path(p).stem`, as used for `markdown_filename` in
`process_markdown_file`. -/
def pathStem (p : String) : String := String.mk (stemOfName (pathNameChars p))

/-- Whether a path string is absolute (begins with `/`). -/
def isAbs (b : String) : Bool :=
  match b.data with
  | c :: _ => c = '/'
  | [] => false

/-- POSIX `os.path.join` for two components: an absolute second component
replaces the first; otherwise the components are joined with a `/` unless
the first is empty or already ends in `/`. -/
def os_path_join (a b : String) : String :=
  if isAbs b then b
  else if a = "" ∨ a.data.getLast? = some '/' then a ++ b
  else a ++ "/" ++ b

/-- `IMAGE_DIR = "static/images"` from `script.py`. -/
def IMAGE_DIR : String := "static/images"

/-- Downloaded content, as a byte sequence. -/
abbrev Bytes := List Nat

/-- Outcome of one HTTP GET attempt, classifying the exceptions
`retry_request` distinguishes: a successful response with its body, a
retryable transport error (`TimeoutException` / `RequestError`), or an
HTTP error status (`HTTPStatusError` raised by `raise_for_status`). -/
inductive FetchOutcome where
  | success (content : Bytes)
  | transient
  | statusError (code : Nat)
deriving DecidableEq, Repr

/-- Result of `retry_request`: the returned response body (or `none`), the
backoff sleeps performed in order, and how many attempts were consumed. -/
structure RetryResult where
  response : Option Bytes
  sleeps : List ℚ
  attemptsMade : Nat
deriving DecidableEq, Repr

/-- The loop body of `retry_request`: `rem` attempts remain, `i` is the
current attempt index, `delay` the current backoff delay, `acc` the sleeps
performed so far (reversed). -/
def retryGo (attempts : Nat → FetchOutcome) (f : ℚ) :
    Nat → Nat → ℚ → List ℚ → RetryResult
  | 0, i, _, acc => { response := none, sleeps := acc.reverse, attemptsMade := i }
  | rem + 1, i, d, acc =>
    match attempts i with
    | .success c => { response := some c, sleeps := acc.reverse, attemptsMade := i + 1 }
    | .transient => retryGo attempts f rem (i + 1) (d * f) (d :: acc)
    | .statusError _ => { response := none, sleeps := acc.reverse, attemptsMade := i + 1 }

/-- `retry_request(client, image_url, retries=3, backoff_factor=2.0)`:
up to `retries` GET attempts; a retryable error sleeps `delay` (initially 1)
and multiplies `delay` by `backoff_factor`; an HTTP status error returns
`None` immediately; exhaustion returns `None`.  The network behaviour is
abstracted as the per-attempt outcome function `attempts`. -/
def retry_request (attempts : Nat → FetchOutcome) (retries : Nat := 3)
    (backoff_factor : ℚ := 2) : RetryResult :=
  retryGo attempts backoff_factor retries 0 1 []

/-- The filesystem visible to the script: contents at each path. -/
structure World where
  files : String → Option Bytes

/-- An I/O exception (`OSError`) raised by directory creation or file
writing; the script does not catch these. -/
inductive IOErr where
  | mkdirError (path : String)
  | writeError (path : String)
deriving DecidableEq, Repr

/-- Environment of one `process_markdown_file` call: `net i a` is the
outcome of attempt `a` of the `i`-th `download_image` call in the document,
and `mkdirFail` / `writeFail` say whether the OS raises on creating a given
directory or opening a given file for writing. -/
structure Env where
  net : Nat → Nat → FetchOutcome
  mkdirFail : String → Bool
  writeFail : String → Bool

/-- `download_image(client, image_url, dest_path)`: run `retry_request`
(with its default `retries=3, backoff_factor=2.0`); if a response came back,
open `dest_path` and write the body (raising `IOErr` if the OS write
fails — the script has no handler); otherwise only log, the destination is
never opened.  Returns the updated world and the bytes written, if any. -/
def download_image (env : Env) (attempts : Nat → FetchOutcome) (dest_path : String)
    (w : World) : Except IOErr (World × Option Bytes) :=
  match (retry_request attempts 3 2).response with
  | some c =>
    if env.writeFail dest_path then .error (.writeError dest_path)
    else .ok (⟨fun p => if p = dest_path then some c else w.files p⟩, some c)
  | none => .ok (w, none)

/-- The download loop of `process_markdown_file`: for each `(ref_name,
image_url)` pair in order, compute `img_path = os.path.join(image_subdir,
f"{ref_name}.png")` and run `download_image`.  Returns the final world, the
fetches performed (one per `download_image` call), the writes performed
`(path, bytes)`, and the backoff sleeps, all in order.  `i` numbers the
download calls for the network environment. -/
def downloadAll (env : Env) (image_subdir : String) :
    List (String × String) → Nat → World →
    Except IOErr (World × List (String × String) × List (String × Bytes) × List ℚ)
  | [], _, w => .ok (w, [], [], [])
  | (ref_name, image_url) :: rest, i, w =>
    let img_path := os_path_join image_subdir (ref_name ++ ".png")
    match download_image env (env.net i) img_path w with
    | .error e => .error e
    | .ok (w1, wrote) =>
      match downloadAll env image_subdir rest (i + 1) w1 with
      | .error e => .error e
      | .ok (w2, fs, ws, ss) =>
        .ok (w2, (ref_name, image_url) :: fs,
             (match wrote with | some c => [(img_path, c)] | none => []) ++ ws,
             (retry_request (env.net i) 3 2).sleeps ++ ss)

/-- Observable result of one `process_markdown_file` call. -/
structure ProcResult where
  world : World
  fetches : List (String × String)
  writes : List (String × Bytes)
  sleeps : List ℚ
  mkdirs : List String

/-- `process_markdown_file(client, file_path, ...)` with the file's text
passed explicitly: extract `image_urls`; if empty return at once; otherwise
compute `image_subdir = os.path.join(IMAGE_DIR, Path(file_path).stem)`,
create it (raising `IOErr` on OS failure — uncaught), and run the download
loop. -/
def process_markdown_file (env : Env) (file_path : String) (content : String)
    (w : World) : Except IOErr ProcResult :=
  let imgUrls := image_urls content
  if imgUrls.isEmpty then .ok ⟨w, [], [], [], []⟩
  else
    let markdown_filename := pathStem file_path
    let image_subdir := os_path_join IMAGE_DIR markdown_filename
    if env.mkdirFail image_subdir then .error (.mkdirError image_subdir)
    else
      match downloadAll env image_subdir imgUrls 0 w with
      | .error e => .error e
      | .ok (w1, fs, ws, ss) => .ok ⟨w1, fs, ws, ss, [image_subdir]⟩

/-! ### Worlds, environments and result projections used in concrete runs -/

/-- The empty filesystem. -/
def emptyWorld : World := ⟨fun _ => none⟩

/-- Environment where every GET succeeds with body `c` and the OS never
fails. -/
def envSuccess (c : Bytes) : Env :=
  ⟨fun _ _ => .success c, fun _ => false, fun _ => false⟩

/-- Environment where every GET fails with a retryable transport error and
the OS never fails. -/
def envTransient : Env :=
  ⟨fun _ _ => .transient, fun _ => false, fun _ => false⟩

/-- Environment where every GET succeeds with body `c` but every attempt to
open a file for writing raises an OS error. -/
def envWriteFail (c : Bytes) : Env :=
  ⟨fun _ _ => .success c, fun _ => false, fun _ => true⟩

/-- Environment where every GET succeeds with body `c` but directory
creation raises an OS error. -/
def envMkdirFail (c : Bytes) : Env :=
  ⟨fun _ _ => .success c, fun _ => true, fun _ => false⟩

/-- An attempt sequence that always fails with a retryable transport
error. -/
def allTransient : Nat → FetchOutcome := fun _ => .transient

/-- An attempt sequence that always returns HTTP status 404. -/
def allStatus404 : Nat → FetchOutcome := fun _ => .statusError 404

/-- Whether a `process_markdown_file` call returned without raising. -/
def procOk (x : Except IOErr ProcResult) : Bool :=
  match x with
  | .ok _ => true
  | .error _ => false

/-- The write trace of a `process_markdown_file` call (empty if it
raised). -/
def writesOf (x : Except IOErr ProcResult) : List (String × Bytes) :=
  match x with
  | .ok r => r.writes
  | .error _ => []

/-! ### Helper lemmas about the retry loop -/

/-- If every remaining attempt fails with a retryable error, the retry loop
returns no response, sleeps once after every attempt (the current delay
multiplied by the backoff factor each time), and consumes all attempts. -/
lemma retryGo_all_transient (attempts : Nat → FetchOutcome) (f : ℚ) :
    ∀ (rem i : Nat) (d : ℚ) (acc : List ℚ),
      (∀ k, k < rem → attempts (i + k) = .transient) →
      retryGo attempts f rem i d acc =
        { response := none,
          sleeps := acc.reverse ++ (List.range rem).map (fun k => d * f ^ k),
          attemptsMade := i + rem }
  | 0, i, d, acc, _ => by simp [retryGo]
  | rem + 1, i, d, acc, h => by
    have h0 : attempts i = .transient := by simpa using h 0 (Nat.succ_pos rem)
    have ih := retryGo_all_transient attempts f rem (i + 1) (d * f) (d :: acc)
      (fun k hk => by
        have := h (k + 1) (by omega)
        simpa [Nat.add_assoc, Nat.add_comm, Nat.add_left_comm] using this)
    rw [retryGo, h0, ih]
    have hmap : (List.range (rem + 1)).map (fun k => d * f ^ k) =
        d :: (List.range rem).map (fun k => d * f * f ^ k) := by
      rw [List.range_succ_eq_map, List.map_cons, List.map_map]
      simp only [pow_zero, mul_one, List.cons.injEq, true_and]
      apply List.map_congr_left
      intro a _
      simp only [Function.comp_apply, pow_succ]
      ring
    simp [hmap]
    omega

/-- `retry_request` under total transient failure: no response, `R` backoff
sleeps with delays `1, f, f^2, …, f^(R-1)`, all attempts consumed. -/
lemma retry_request_all_transient (attempts : Nat → FetchOutcome) (R : Nat) (f : ℚ)
    (h : ∀ k, k < R → attempts k = .transient) :
    retry_request attempts R f =
      { response := none, sleeps := (List.range R).map (fun k => f ^ k),
        attemptsMade := R } := by
  have := retryGo_all_transient attempts f R 0 1 [] (by simpa using h)
  rw [retry_request, this]
  simp

/-! ### Helper lemmas about the download loop -/

/-- When the download loop returns normally, it has performed exactly one
fetch per reference pair, in order: the fetch trace is the reference list
itself. -/
lemma downloadAll_ok_fetches (env : Env) (sub : String) :
    ∀ (refs : List (String × String)) (i : Nat) (w w1 : World)
      (fs : List (String × String)) (ws : List (String × Bytes)) (ss : List ℚ),
      downloadAll env sub refs i w = .ok (w1, fs, ws, ss) → fs = refs
  | [], i, w, w1, fs, ws, ss, h => by
    simp only [downloadAll, Except.ok.injEq, Prod.mk.injEq] at h
    exact h.2.1.symm
  | (n, u) :: rest, i, w, w1, fs, ws, ss, h => by
    rw [downloadAll] at h
    split at h
    · cases h
    · rename_i wA wrote hdl
      split at h
      · cases h
      · rename_i w2 fs2 ws2 ss2 hrec
        simp only [Except.ok.injEq, Prod.mk.injEq] at h
        have ih := downloadAll_ok_fetches env sub rest (i + 1) wA w2 fs2 ws2 ss2 hrec
        rw [← h.2.1, ih]

/-- When every fetch in the document comes back with no response, the
download loop succeeds, writes nothing and leaves the world untouched. -/
lemma downloadAll_all_none (env : Env) (sub : String)
    (hresp : ∀ j, (retry_request (env.net j) 3 2).response = none) :
    ∀ (refs : List (String × String)) (i : Nat) (w : World),
      ∃ ss, downloadAll env sub refs i w = .ok (w, refs, [], ss)
  | [], i, w => ⟨[], by simp [downloadAll]⟩
  | (n, u) :: rest, i, w => by
    obtain ⟨ss, ih⟩ := downloadAll_all_none env sub hresp rest (i + 1) w
    exact ⟨(retry_request (env.net i) 3 2).sleeps ++ ss, by
      simp [downloadAll, download_image, hresp i, ih]⟩

/-- If the download loop returns normally and the `j`-th reference's fetch
produced a response `c`, then the loop performed the corresponding write:
`(os.path.join(image_subdir, name + ".png"), c)` appears in the write
trace. -/
lemma downloadAll_writes_mem (env : Env) (sub : String) :
    ∀ (refs : List (String × String)) (i : Nat) (w w1 : World)
      (fs : List (String × String)) (ws : List (String × Bytes)) (ss : List ℚ)
      (j : Nat) (n u : String) (c : Bytes),
      downloadAll env sub refs i w = .ok (w1, fs, ws, ss) →
      refs.get? j = some (n, u) →
      (retry_request (env.net (i + j)) 3 2).response = some c →
      (os_path_join sub (n ++ ".png"), c) ∈ ws
  | [], _, _, _, _, _, _, j, n, u, c, _, href, _ => by cases href
  | (n0, u0) :: rest, i, w, w1, fs, ws, ss, j, n, u, c, h, href, hresp => by
    rw [downloadAll] at h
    split at h
    · cases h
    · rename_i wA wrote hdl
      split at h
      · cases h
      · rename_i w2 fs2 ws2 ss2 hrec
        simp only [Except.ok.injEq, Prod.mk.injEq] at h
        cases j with
        | zero =>
          simp only [List.get?, Option.some.injEq, Prod.mk.injEq] at href
          obtain ⟨hn, hu⟩ := href
          simp only [Nat.add_zero] at hresp
          rw [← hn]
          rcases hwf : env.writeFail (os_path_join sub (n0 ++ ".png")) with _ | _
          · rw [download_image, hresp, hwf] at hdl
            simp only [Bool.false_eq_true, if_false, Except.ok.injEq,
              Prod.mk.injEq] at hdl
            rw [← h.2.2.1, ← hdl.2]
            exact List.mem_append_left _ (by simp)
          · rw [download_image, hresp, hwf] at hdl
            simp at hdl
        | succ j =>
          have hresp2 : (retry_request (env.net (i + 1 + j)) 3 2).response = some c := by
            have : i + 1 + j = i + (j + 1) := by omega
            rw [this]; exact hresp
          have ih := downloadAll_writes_mem env sub rest (i + 1) wA w2 fs2 ws2 ss2
            j n u c hrec href hresp2
          rw [← h.2.2.1]
          exact List.mem_append_right _ ih

/-! ### Path-shape lemmas -/

/-- No character of `Path(p).name` is a slash. -/
lemma mem_pathNameChars_ne_slash (p : String) : ∀ c ∈ pathNameChars p, c ≠ '/' := by
  intro c hc
  rw [pathNameChars, List.mem_reverse] at hc
  have := List.mem_takeWhile_imp hc
  simpa using this

/-- The stem is built from characters of the name. -/
lemma mem_stemOfName (n : List Char) : ∀ c ∈ stemOfName n, c ∈ n := by
  intro c hc
  rw [stemOfName] at hc
  split at hc
  · split at hc
    · exact List.take_subset _ _ hc
    · exact hc
  · exact hc

/-- No character of `Path(p).stem` is a slash. -/
lemma mem_pathStem_ne_slash (p : String) : ∀ c ∈ (pathStem p).data, c ≠ '/' := by
  intro c hc
  exact mem_pathNameChars_ne_slash p c (mem_stemOfName _ c hc)

/-- A string with no slash anywhere is not an absolute path. -/
lemma isAbs_eq_false_of_ne_slash (s : String) (h : ∀ c ∈ s.data, c ≠ '/') :
    isAbs s = false := by
  rw [isAbs]
  rcases hd : s.data with _ | ⟨c, cs⟩
  · rfl
  · have : c ≠ '/' := h c (by rw [hd]; exact List.mem_cons_self c cs)
    simp [this]

/-- A string with no slash anywhere does not end in a slash. -/
lemma getLast?_not_slash (s : String) (h : ∀ c ∈ s.data, c ≠ '/') :
    ¬ s.data.getLast? = some '/' := by
  intro hl
  obtain ⟨hne, hx⟩ := List.mem_getLast?_eq_getLast (l := s.data) (x := '/') hl
  apply h '/' _ rfl
  rw [hx]
  exact List.getLast_mem hne

/-- `os.path.join` is plain concatenation with a separator when the first
component is nonempty without a trailing slash and the second component is
relative. -/
lemma os_path_join_eq (a b : String) (ha : a ≠ "") (hl : ¬ a.data.getLast? = some '/')
    (hb : isAbs b = false) : os_path_join a b = a ++ "/" ++ b := by
  rw [os_path_join, if_neg (by simp [hb]), if_neg (not_or.2 ⟨ha, hl⟩)]

/-- Appending a relative path to a relative path is relative. -/
lemma isAbs_append_of (n m : String) (hn : isAbs n = false) (hm : isAbs m = false) :
    isAbs (n ++ m) = false := by
  rw [isAbs, String.data_append]
  rcases hd : n.data with _ | ⟨c, cs⟩
  · rw [List.nil_append]
    rw [isAbs] at hm
    exact hm
  · rw [isAbs, hd] at hn
    exact hn

/-- A string starting with a nonempty string is nonempty. -/
lemma append_ne_empty_left (a b : String) (ha : a.data ≠ []) : a ++ b ≠ "" := by
  intro h
  have hd := congrArg String.data h
  rw [String.data_append] at hd
  simp only [String.data] at hd
  rcases List.append_eq_nil.1 hd with ⟨h1, _⟩
  exact ha h1

/-- The image subdirectory `static/images/<stem>` does not end in a slash
when the stem is nonempty. -/
lemma subdir_getLast_not_slash (fp : String) (hstem : pathStem fp ≠ "") :
    ¬ (IMAGE_DIR ++ "/" ++ pathStem fp).data.getLast? = some '/' := by
  have hne : (pathStem fp).data ≠ [] := by
    intro h
    exact hstem (String.ext h)
  rw [String.data_append, List.getLast?_append_of_ne_nil _ hne]
  exact getLast?_not_slash _ (mem_pathStem_ne_slash fp)

/-! ### Inversion of a normal `process_markdown_file` return -/

/-- If `process_markdown_file` returns normally, then either there were no
resolvable references and nothing happened, or the directory creation
succeeded and the result is exactly the download loop's outcome plus the
one directory creation. -/
lemma process_ok_cases (env : Env) (fp content : String) (w : World) (r : ProcResult)
    (h : process_markdown_file env fp content w = .ok r) :
    (image_urls content = [] ∧ r = ⟨w, [], [], [], []⟩) ∨
    (image_urls content ≠ [] ∧
      env.mkdirFail (os_path_join IMAGE_DIR (pathStem fp)) = false ∧
      ∃ w1 fs ws ss,
        downloadAll env (os_path_join IMAGE_DIR (pathStem fp)) (image_urls content) 0 w
          = .ok (w1, fs, ws, ss) ∧
        r = ⟨w1, fs, ws, ss, [os_path_join IMAGE_DIR (pathStem fp)]⟩) := by
  simp only [process_markdown_file] at h
  split at h
  · rename_i hemp
    left
    refine ⟨List.isEmpty_iff.1 hemp, ?_⟩
    cases h
    rfl
  · rename_i hemp
    split at h
    · cases h
    · rename_i hmk
      right
      refine ⟨fun hnil => hemp (by rw [hnil]; rfl), by simpa using hmk, ?_⟩
      split at h
      · cases h
      · rename_i w1 fs ws ss hdl
        exact ⟨w1, fs, ws, ss, hdl, by cases h; rfl⟩

/-! ### Claim theorems -/

/-- C2: if every attempt of every fetch in the document fails with a
retryable error (the script's fixed default `retries=3`), and the OS does
not raise on directory creation, then `process_markdown_file` returns
normally — no exception escapes — with no write performed and the
filesystem exactly as it was. -/
theorem C2_exhausted_retries_no_write_no_raise (env : Env) (fp content : String)
    (w : World)
    (hnet : ∀ i a, a < 3 → env.net i a = .transient)
    (hmk : env.mkdirFail (os_path_join IMAGE_DIR (pathStem fp)) = false) :
    (process_markdown_file env fp content w).map (fun r => (r.writes, r.world))
      = .ok ([], w) := by
  have hresp : ∀ j, (retry_request (env.net j) 3 2).response = none := by
    intro j
    rw [retry_request_all_transient (env.net j) 3 2 (fun k hk => hnet j k hk)]
  by_cases hemp : (image_urls content).isEmpty = true
  · simp only [process_markdown_file]
    rw [if_pos hemp]
    rfl
  · obtain ⟨ss, hdl⟩ := downloadAll_all_none env _ hresp (image_urls content) 0 w
    simp only [process_markdown_file]
    rw [if_neg hemp, if_neg (by simp [hmk]), hdl]
    rfl

/-- C2 witness: a concrete document with one resolvable reference whose
fetch times out on all three attempts. -/
theorem C2_witness :
    (process_markdown_file envTransient "content/post.md"
        "![x][a]\n\n[a]: http://u" emptyWorld).map (fun r => (r.writes, r.world))
      = .ok ([], emptyWorld) :=
  C2_exhausted_retries_no_write_no_raise envTransient "content/post.md"
    "![x][a]\n\n[a]: http://u" emptyWorld (fun _ _ _ => rfl) rfl

/-- C3 counterexample: with the default `retries=3, backoff_factor=2.0` and
all three attempts failing with retryable errors, the Fetcher performs
THREE backoff sleeps (1, 2 and 4 time-units) — one after every failed
attempt, including the final one — not the claimed `R - 1 = 2` sleeps. -/
theorem C3_counterexample :
    retry_request allTransient 3 2
      = { response := none, sleeps := [1, 2, 4], attemptsMade := 3 } ∧
    ¬ (retry_request allTransient 3 2).sleeps.length = 3 - 1 := by
  have h := retry_request_all_transient allTransient 3 2 (fun _ _ => rfl)
  have hs : (List.range 3).map (fun k => (2 : ℚ) ^ k) = [1, 2, 4] := by
    simp [List.range_succ]
    norm_num
  rw [h, hs]
  refine ⟨rfl, ?_⟩
  simp

/-- C3 (amended): when all `R` attempts fail with retryable errors, the
Fetcher performs exactly `R` backoff sleeps — one after every retryable
failure, including after the final attempt — with delays `1, f, f^2, …,
f^(R-1)`, and returns no response. -/
theorem C3_backoff_sleeps_geometric (attempts : Nat → FetchOutcome) (R : Nat) (f : ℚ)
    (h : ∀ k, k < R → attempts k = .transient) :
    retry_request attempts R f
      = { response := none, sleeps := (List.range R).map (fun k => f ^ k),
          attemptsMade := R } :=
  retry_request_all_transient attempts R f h

/-- C3 witness: the default configuration with every attempt timing out. -/
theorem C3_witness :
    retry_request allTransient 3 2
      = { response := none, sleeps := (List.range 3).map (fun k => (2 : ℚ) ^ k),
          attemptsMade := 3 } :=
  C3_backoff_sleeps_geometric allTransient 3 2 (fun _ _ => rfl)

/-- C4: an HTTP error status on the first attempt makes the Fetcher return
immediately — one attempt consumed, no backoff sleep, no response — and
`download_image` therefore writes nothing and leaves the world unchanged. -/
theorem C4_status_error_immediate (attempts : Nat → FetchOutcome) (R : Nat) (f : ℚ)
    (env : Env) (dest : String) (w : World) (code : Nat)
    (hR : 1 ≤ R) (h0 : attempts 0 = .statusError code) :
    retry_request attempts R f = { response := none, sleeps := [], attemptsMade := 1 } ∧
    download_image env attempts dest w = .ok (w, none) := by
  obtain ⟨R1, rfl⟩ : ∃ R1, R = R1 + 1 := ⟨R - 1, by omega⟩
  have h3 : retry_request attempts (R1 + 1) f
      = { response := none, sleeps := [], attemptsMade := 1 } := by
    rw [retry_request, retryGo, h0]
    rfl
  refine ⟨h3, ?_⟩
  have h4 : retry_request attempts 3 2
      = { response := none, sleeps := [], attemptsMade := 1 } := by
    rw [retry_request]
    show retryGo attempts 2 (2 + 1) 0 1 [] = _
    rw [retryGo, h0]
    rfl
  rw [download_image, h4]

/-- C4 witness: a 404 on the first attempt, with an environment in which any
write would raise — nothing is written and the world is preserved. -/
theorem C4_witness :
    retry_request allStatus404 3 2
      = { response := none, sleeps := [], attemptsMade := 1 } ∧
    download_image (envWriteFail [5]) allStatus404 "static/images/post/a.png"
        emptyWorld = .ok (emptyWorld, none) :=
  C4_status_error_immediate allStatus404 3 2 (envWriteFail [5])
    "static/images/post/a.png" emptyWorld 404 (by omega) rfl

/-- C6: a document whose extraction yields no resolvable reference
short-circuits `process_markdown_file`: no directory creation, no fetch, no
write, no sleep, and the filesystem is returned unchanged. -/
theorem C6_empty_references_no_effects (env : Env) (fp content : String) (w : World)
    (h : image_urls content = []) :
    process_markdown_file env fp content w = .ok ⟨w, [], [], [], []⟩ := by
  simp only [process_markdown_file]
  rw [if_pos (by rw [h]; rfl)]

/-- C6 witness: a document with no markers at all. -/
theorem C6_witness :
    process_markdown_file (envSuccess [7]) "content/post.md" "no images here"
        emptyWorld = .ok ⟨emptyWorld, [], [], [], []⟩ :=
  C6_empty_references_no_effects (envSuccess [7]) "content/post.md" "no images here"
    emptyWorld (by decide)

/-- C9: whenever `retry_request` yields no response — retry exhaustion or a
fatal status error alike — `download_image` never opens the destination
path: for every environment (even one in which any write would raise) it
returns normally with the world untouched, so content already present at
the destination from a prior run is preserved byte for byte. -/
theorem C9_failed_fetch_preserves_destination (env : Env)
    (attempts : Nat → FetchOutcome) (dest : String) (w : World)
    (h : (retry_request attempts 3 2).response = none) :
    download_image env attempts dest w = .ok (w, none) := by
  rw [download_image, h]

/-- C9 witness: existing bytes at the destination survive a fetch that
exhausts its retries, in an environment in which any write would raise. -/
theorem C9_witness :
    download_image (envWriteFail [9]) allTransient "static/images/post/a.png"
        ⟨fun p => if p = "static/images/post/a.png" then some [1, 2] else none⟩
      = .ok (⟨fun p => if p = "static/images/post/a.png" then some [1, 2] else none⟩,
             none) :=
  C9_failed_fetch_preserves_destination (envWriteFail [9]) allTransient
    "static/images/post/a.png"
    ⟨fun p => if p = "static/images/post/a.png" then some [1, 2] else none⟩ rfl

/-- C1 counterexample: the document `![x][a]![y][a]` with a single
definition of `a` produces TWO fetches and TWO writes for the name `a` —
`process_markdown_file` iterates over every inline occurrence and never
de-duplicates the extracted reference sequence. -/
theorem C1_counterexample :
    (process_markdown_file (envSuccess [7]) "content/post.md"
        "![x][a]![y][a]\n\n[a]: http://u" emptyWorld).map
      (fun r => ((r.fetches.filter (fun q => q.1 = "a")).length,
                 (r.writes.filter (fun q => q.1 = "static/images/post/a.png")).length))
      = .ok (2, 2) ∧ (2 : Nat) ≠ 1 :=
  ⟨rfl, by decide⟩

/-- C1 (amended): whenever `process_markdown_file` returns normally, its
fetch trace is exactly the extracted reference sequence — one fetch per
resolvable inline marker occurrence, in document order, duplicates
included — so a name cited by k markers is fetched (and on success written)
k times, not once. -/
theorem C1_one_fetch_per_marker_occurrence (env : Env) (fp content : String)
    (w : World)
    (hok : procOk (process_markdown_file env fp content w) = true) :
    (process_markdown_file env fp content w).map ProcResult.fetches
      = .ok (image_urls content) := by
  rcases hp : process_markdown_file env fp content w with e | r
  · rw [hp] at hok
    simp [procOk] at hok
  · rcases process_ok_cases env fp content w r hp with
      ⟨hnil, hr⟩ | ⟨_, _, w1, fs, ws, ss, hdl, hr⟩
    · rw [hr, hnil]
      rfl
    · have hfs := downloadAll_ok_fetches env _ (image_urls content) 0 w w1 fs ws ss hdl
      rw [hr]
      simp only [Except.map]
      rw [hfs]

/-- C1 witness: at the duplicated-marker document the fetch trace equals the
extracted sequence, which contains the name `a` twice. -/
theorem C1_witness :
    (process_markdown_file (envSuccess [7]) "content/post.md"
        "![x][a]![y][a]\n\n[a]: http://u" emptyWorld).map ProcResult.fetches
      = .ok (image_urls "![x][a]![y][a]\n\n[a]: http://u") ∧
    image_urls "![x][a]![y][a]\n\n[a]: http://u"
      = [("a", "http://u"), ("a", "http://u")] :=
  ⟨C1_one_fetch_per_marker_occurrence (envSuccess [7]) "content/post.md"
    "![x][a]![y][a]\n\n[a]: http://u" emptyWorld rfl, by decide⟩

/-- C5 counterexample: a successfully fetched reference plus an OS that
raises on opening the destination file makes the write IOError escape
`process_markdown_file` — the claim that process never raises past its
boundary is false. -/
theorem C5_counterexample :
    process_markdown_file (envWriteFail [5]) "content/post.md"
        "![x][a]\n\n[a]: http://u" emptyWorld
      = .error (.writeError "static/images/post/a.png") :=
  rfl

/-- C5 (amended): per-reference fetch failures are contained by
`process_markdown_file`, but OS errors are not — when the document has at
least one resolvable reference and directory creation raises, the IOError
propagates out of the call, aborting every reference. -/
theorem C5_io_error_escapes (env : Env) (fp content : String) (w : World)
    (himg : image_urls content ≠ [])
    (hmk : env.mkdirFail (os_path_join IMAGE_DIR (pathStem fp)) = true) :
    process_markdown_file env fp content w
      = .error (.mkdirError (os_path_join IMAGE_DIR (pathStem fp))) := by
  simp only [process_markdown_file]
  rw [if_neg (fun hh => himg (List.isEmpty_iff.1 hh)), if_pos hmk]

/-- C5 witness: directory creation raising on a document with one
resolvable reference. -/
theorem C5_witness :
    process_markdown_file (envMkdirFail [5]) "content/post.md"
        "![x][a]\n\n[a]: http://u" emptyWorld
      = .error (.mkdirError (os_path_join IMAGE_DIR (pathStem "content/post.md"))) :=
  C5_io_error_escapes (envMkdirFail [5]) "content/post.md"
    "![x][a]\n\n[a]: http://u" emptyWorld (by decide) rfl

/-- C7: at the failing input the definition scan finds only the final
definition line — the `$` of `REFERENCE_IMAGE_PATTERN` anchors at
end-of-string because `re.MULTILINE` is not set — so `[a]: http://u1` is
invisible and the marker `![x][a]` is silently dropped, although the
script's own comments say it collects all image references at the bottom of
the file. -/
theorem C7_definition_scan_misses_nonfinal_lines :
    findall_reference "![x][a]\n![y][b]\n\n[a]: http://u1\n[b]: http://u2"
      = [("b", "http://u2")] ∧
    image_urls "![x][a]\n![y][b]\n\n[a]: http://u1\n[b]: http://u2"
      = [("b", "http://u2")] :=
  ⟨rfl, rfl⟩

/-- C10: the extractor accepts the empty reference name — `![][]` with the
definition `[]: http://example.com/x` resolves to the single reference
`("", "http://example.com/x")`, and a successful run writes the hidden file
`static/images/post/.png`. -/
theorem C10_empty_name_hidden_file :
    image_urls "![][]\n\n[]: http://example.com/x" = [("", "http://example.com/x")] ∧
    (process_markdown_file (envSuccess [4]) "content/post.md"
        "![][]\n\n[]: http://example.com/x" emptyWorld).map
      (fun r => r.writes.map Prod.fst)
      = .ok ["static/images/post/.png"] :=
  ⟨rfl, rfl⟩

/-- C8 counterexample: a reference name beginning with `/` — marker
`![y][/x]` with definition `[/x]: http://u` — makes `os.path.join` discard
the image subdirectory: the file is written at the absolute path `/x.png`,
not at `static/images/post//x.png` as the unqualified claim predicts. -/
theorem C8_counterexample :
    (process_markdown_file (envSuccess [9]) "content/post.md"
        "![y][/x]\n\n[/x]: http://u" emptyWorld).map
      (fun r => r.writes.map Prod.fst)
      = .ok ["/x.png"] ∧
    ("/x.png" : String) ≠ "static/images" ++ "/" ++ "post" ++ "/" ++ "/x" ++ ".png" :=
  ⟨rfl, by decide⟩

/-- C8 (amended): for every successfully fetched reference whose name does
not begin with a path separator (and a document with a nonempty stem, as
every discovered `.md` file has), the response bytes are written to
`<image-root>/<document-stem>/<reference-name>.png` — the `.png` extension
forced regardless of the source URL's extension. -/
theorem C8_write_target_shape (env : Env) (fp content : String) (w : World)
    (j : Nat) (n u : String) (c : Bytes)
    (href : (image_urls content).get? j = some (n, u))
    (hresp : (retry_request (env.net j) 3 2).response = some c)
    (hn : isAbs n = false) (hstem : pathStem fp ≠ "")
    (hok : procOk (process_markdown_file env fp content w) = true) :
    (IMAGE_DIR ++ "/" ++ pathStem fp ++ "/" ++ (n ++ ".png"), c)
      ∈ writesOf (process_markdown_file env fp content w) := by
  rcases hp : process_markdown_file env fp content w with e | r
  · rw [hp] at hok
    simp [procOk] at hok
  · rcases process_ok_cases env fp content w r hp with
      ⟨hnil, _⟩ | ⟨_, _, w1, fs, ws, ss, hdl, hr⟩
    · rw [hnil] at href
      simp at href
    · have hmem := downloadAll_writes_mem env _ (image_urls content) 0 w w1 fs ws ss
        j n u c hdl href (by simpa using hresp)
      have hsub : os_path_join IMAGE_DIR (pathStem fp) = IMAGE_DIR ++ "/" ++ pathStem fp :=
        os_path_join_eq _ _ (by decide) (by decide)
          (isAbs_eq_false_of_ne_slash _ (mem_pathStem_ne_slash fp))
      have hdest : os_path_join (os_path_join IMAGE_DIR (pathStem fp)) (n ++ ".png")
          = IMAGE_DIR ++ "/" ++ pathStem fp ++ "/" ++ (n ++ ".png") := by
        rw [hsub, os_path_join_eq _ _
          (append_ne_empty_left _ _ (by decide))
          (subdir_getLast_not_slash fp hstem)
          (isAbs_append_of n ".png" hn (by decide))]
      rw [← hdest]
      show _ ∈ ProcResult.writes r
      rw [hr]
      exact hmem

/-- C8 witness: the specification's own scenario — a `.jpg` source URL whose
bytes nevertheless land in `static/images/post/a.png`. -/
theorem C8_witness :
    (IMAGE_DIR ++ "/" ++ pathStem "content/post.md" ++ "/" ++ ("a" ++ ".png"), [1, 2, 3])
      ∈ writesOf (process_markdown_file (envSuccess [1, 2, 3]) "content/post.md"
          "![x][a]\n\n[a]: https://example.com/pic.jpg" emptyWorld) :=
  C8_write_target_shape (envSuccess [1, 2, 3]) "content/post.md"
    "![x][a]\n\n[a]: https://example.com/pic.jpg" emptyWorld
    0 "a" "https://example.com/pic.jpg" [1, 2, 3] (by decide) rfl (by decide)
    (by decide) rfl
